import Mathlib

/-!
Shallow embedding of `src/bank_account.py` (class `BankAccount`).

Modelling conventions:
* Exact 2-decimal currency quantities (Python `Decimal` values quantized to
  `Decimal('0.01')`) are represented as integer cents (`ℤ`), so the decimal
  value is `cents / 100`.  This is exact, as in the source.
* A numeric Python argument (`int`, `float`, or `Decimal`) is represented by
  the exact rational value that `Decimal(str(x))` produces: for `int` and
  `Decimal` this is the exact value, and for a finite `float` it is the value
  of Python's shortest round-trip decimal repr.  Non-finite floats are outside
  the model.
* Python exceptions are modelled with `Except`; the error value carries the
  state of the object at the moment the exception is raised, so that the
  "failure mutates nothing" property is a real statement about where the
  raises sit in the source, not an artefact of the embedding.
* `datetime.now()` is nondeterministic; each mutating call takes the timestamp
  string it would record as an explicit argument.
-/

set_option autoImplicit false

namespace BankPy

/-- The runtime value passed as an `amount` argument (Python is dynamically
typed, so any object can arrive).  `num q` covers `int`, `float` and `Decimal`
arguments whose `Decimal(str(·))` value is the rational `q`; `boolean`
covers `bool` (which in Python is a subclass of `int`); `nonNumeric` covers
every other type (e.g. `str`), with its payload irrelevant to control flow. -/
inductive PyAmount where
  | num (q : ℚ)
  | boolean (b : Bool)
  | nonNumeric (s : String)
deriving DecidableEq, Repr

/-- The distinguishable failure modes of the source, one per `raise` site:
`ValueError("Account number cannot be empty")` and
`ValueError("Account number must be exactly 9 digits")` are
`invalidIdentifier` with the message kept; `ValueError("Initial balance
cannot be negative")` is `negativeInitialBalance`; `TypeError("Amount must
be numeric")` is `nonNumericAmount`; `ValueError("Amount must be positive")`
is `nonPositiveAmount`; `ValueError("Insufficient funds")` is
`insufficientFunds`; and `decimal.InvalidOperation`, raised by
`Decimal(str(amount))` when `str(amount)` is not a decimal literal, is
`invalidOperation`. -/
inductive BankError where
  | invalidIdentifier (msg : String)
  | negativeInitialBalance
  | nonNumericAmount
  | nonPositiveAmount
  | insufficientFunds
  | invalidOperation
deriving DecidableEq, Repr

inductive TransactionType where
  | deposit
  | withdrawal
deriving DecidableEq, Repr

/-- One entry of `_transaction_history`: the dict
`{'type': ..., 'amount': ..., 'timestamp': ...}` built in
`_record_transaction`.  `amount` is in cents. -/
structure Transaction where
  type : TransactionType
  amount : ℤ
  timestamp : String
deriving DecidableEq, Repr

/-- `Decimal(str(x)).quantize(Decimal('0.01'), rounding=ROUND_HALF_UP)`, as
integer cents: the integer nearest to `100 * q`, with ties rounded away from
zero (Python's `ROUND_HALF_UP`).  For `0 ≤ q` this is `⌊100 * q + 1/2⌋`,
computed on the numerator and denominator so that the kernel can evaluate
it: with `q = n / d` in lowest terms, `⌊100 * q + 1/2⌋ = (200*n + d) / (2*d)`
(integer floor division); a negative value is rounded through its absolute
value.  `quantizeCents_nonneg_eq`/`quantizeCents_neg_eq` prove the floor
form, and `abs_quantizeCents_sub` proves it is a nearest integer. -/
def quantizeCents (q : ℚ) : ℤ :=
  if 0 ≤ q.num then (200 * q.num + q.den) / (2 * q.den)
  else -((200 * -q.num + q.den) / (2 * q.den))

/-- Python's `str.isdigit` on a single character.  Python's predicate is
Unicode-aware: it is true for the ASCII digits and also for every character
with Unicode property `Numeric_Type=Digit` or `Numeric_Type=Decimal`.  The
model covers the ASCII digits U+0030..U+0039 together with two representative
non-ASCII families that Python accepts: the ARABIC-INDIC digits
U+0660..U+0669 (category Nd) and the superscript digits U+00B2, U+00B3,
U+00B9 (`Numeric_Type=Digit`). -/
def pyCharIsDigit (c : Char) : Bool :=
  (0x30 ≤ c.toNat && c.toNat ≤ 0x39)
    || (0x660 ≤ c.toNat && c.toNat ≤ 0x669)
    || c.toNat == 0xB2 || c.toNat == 0xB3 || c.toNat == 0xB9

/-- Python's `str.isdigit()`: true iff the string is non-empty and every
character is a digit character. -/
def pyStrIsDigit (s : String) : Bool :=
  !s.isEmpty && s.data.all pyCharIsDigit

/-- The `isinstance(amount, (int, float, Decimal))` test of
`_validate_amount`.  `bool` passes because it is a subclass of `int`. -/
def isinstanceNumeric (amount : PyAmount) : Bool :=
  match amount with
  | .num _ => true
  | .boolean _ => true
  | .nonNumeric _ => false

/-- `Decimal(str(amount))` for an argument that passed the `isinstance`
test.  For `int`, `float`, `Decimal` it yields the exact rational the
argument denotes; for a `bool`, `str(True) = "True"` (resp. `"False"`) is
not a decimal literal and the `Decimal` constructor raises
`decimal.InvalidOperation`. -/
def decimalFromPy (amount : PyAmount) : Except BankError ℚ :=
  match amount with
  | .num q => .ok q
  | .boolean _ => .error .invalidOperation
  | .nonNumeric _ => .error .invalidOperation

/-- `BankAccount._validate_amount` (src/bank_account.py lines 42-64). -/
def _validate_amount (amount : PyAmount) : Except BankError ℤ :=
  if !(isinstanceNumeric amount) then .error .nonNumericAmount
  else
    match decimalFromPy amount with
    | .error e => .error e
    | .ok q =>
      let decimal_amount := quantizeCents q
      if decimal_amount ≤ 0 then .error .nonPositiveAmount
      else .ok decimal_amount

/-- The state of a `BankAccount` object: `account_number`, `_balance`
(cents) and `_transaction_history`. -/
structure BankAccount where
  account_number : String
  bal : ℤ
  hist : List Transaction
deriving DecidableEq, Repr

/-- `BankAccount.__init__` (lines 16-40).  The checks happen in source
order: empty account number, then digit/length format, then negative
initial balance; on success the balance is the quantized initial balance
and the history is empty. -/
def init (account_number : String) (initial_balance : ℚ) :
    Except BankError BankAccount :=
  if account_number.isEmpty then
    .error (.invalidIdentifier "Account number cannot be empty")
  else if !(pyStrIsDigit account_number) || account_number.length != 9 then
    .error (.invalidIdentifier "Account number must be exactly 9 digits")
  else if initial_balance < 0 then
    .error .negativeInitialBalance
  else
    .ok ⟨account_number, quantizeCents initial_balance, []⟩

/-- `BankAccount._record_transaction` (lines 116-128): appends the
transaction dict to `_transaction_history`. -/
def _record_transaction (acct : BankAccount) (transaction_type : TransactionType)
    (amount : ℤ) (ts : String) : BankAccount :=
  { acct with hist := acct.hist ++ [⟨transaction_type, amount, ts⟩] }

/-- `BankAccount.deposit` (lines 66-82).  On an exception the error carries
the object state at the raise; every raise in the source happens before any
mutation.  On success the method returns `True`. -/
def deposit (acct : BankAccount) (amount : PyAmount) (ts : String) :
    Except (BankError × BankAccount) (BankAccount × Bool) :=
  match _validate_amount amount with
  | .error e => .error (e, acct)
  | .ok decimal_amount =>
    let acct' := { acct with bal := acct.bal + decimal_amount }
    .ok (_record_transaction acct' .deposit decimal_amount ts, true)

/-- `BankAccount.withdraw` (lines 84-104). -/
def withdraw (acct : BankAccount) (amount : PyAmount) (ts : String) :
    Except (BankError × BankAccount) (BankAccount × Bool) :=
  match _validate_amount amount with
  | .error e => .error (e, acct)
  | .ok decimal_amount =>
    if acct.bal < decimal_amount then .error (.insufficientFunds, acct)
    else
      let acct' := { acct with bal := acct.bal - decimal_amount }
      .ok (_record_transaction acct' .withdrawal decimal_amount ts, true)

/-- `BankAccount.balance` property (lines 106-113). -/
def balance (acct : BankAccount) : ℤ :=
  acct.bal

/-- Python's `list.copy()`: a fresh list holding the same elements.  In the
value semantics of the embedding this rebuilds the list element by element. -/
def pyListCopy (l : List Transaction) : List Transaction :=
  l.foldr List.cons []

/-- `BankAccount.get_transaction_history` (lines 130-136): returns
`self._transaction_history.copy()`. -/
def get_transaction_history (acct : BankAccount) : List Transaction :=
  pyListCopy acct.hist

/-- One external call on an account, with the timestamp `datetime.now()`
would produce. -/
inductive AccountOp where
  | deposit (amount : PyAmount) (ts : String)
  | withdraw (amount : PyAmount) (ts : String)
deriving DecidableEq, Repr

/-- Dispatch one call. -/
def applyOp (acct : BankAccount) (op : AccountOp) :
    Except (BankError × BankAccount) (BankAccount × Bool) :=
  match op with
  | .deposit amount ts => deposit acct amount ts
  | .withdraw amount ts => withdraw acct amount ts

/-- The account state after one call, whether it succeeded or raised: a
caller that catches the exception observes the state carried by the error. -/
def step (acct : BankAccount) (op : AccountOp) : BankAccount :=
  match applyOp acct op with
  | .ok (acct', _) => acct'
  | .error (_, acct') => acct'

/-- The account state after a sequence of calls. -/
def run (acct : BankAccount) (ops : List AccountOp) : BankAccount :=
  ops.foldl step acct

def isDeposit (t : Transaction) : Bool :=
  match t.type with
  | .deposit => true
  | .withdrawal => false

/-- Sum, in cents, of the amounts of the Deposit transactions of a history. -/
def depositSum (l : List Transaction) : ℤ :=
  ((l.filter isDeposit).map Transaction.amount).sum

/-- Sum, in cents, of the amounts of the Withdrawal transactions. -/
def withdrawalSum (l : List Transaction) : ℤ :=
  ((l.filter fun t => !isDeposit t).map Transaction.amount).sum

/-- A concrete account used to instantiate hypotheses of the general
theorems: account number `"123456789"`, balance 100.00, empty history. -/
def acct100 : BankAccount :=
  ⟨"123456789", 10000, []⟩

/-- The scripted call sequence of the spec's history-ordering scenario:
deposit 50, withdraw 20, deposit 30. -/
def sampleOps : List AccountOp :=
  [.deposit (.num (mkRat 50 1)) "t1",
   .withdraw (.num (mkRat 20 1)) "t2",
   .deposit (.num (mkRat 30 1)) "t3"]

/-! ### Arithmetic facts about `quantizeCents` -/

theorem quantizeCents_nonneg_eq (q : ℚ) (h : 0 ≤ q) :
    quantizeCents q = ⌊100 * q + 1 / 2⌋ := by
  have hd : (q.den : ℚ) ≠ 0 := Nat.cast_ne_zero.mpr q.den_nz
  have hq : (q.num : ℚ) = q * (q.den : ℚ) := by
    nth_rewrite 2 [← Rat.num_div_den q]
    rw [div_mul_cancel₀ _ hd]
  have h2d : ((2 * q.den : ℕ) : ℚ) ≠ 0 := by positivity
  have key : 100 * q + 1 / 2 =
      ((200 * q.num + (q.den : ℤ) : ℤ) : ℚ) / ((2 * q.den : ℕ) : ℚ) := by
    rw [eq_div_iff h2d]
    push_cast
    rw [hq]
    ring
  rw [key, Rat.floor_intCast_div_natCast, quantizeCents,
    if_pos (Rat.num_nonneg.mpr h)]
  push_cast
  rfl

theorem quantizeCents_neg_eq (q : ℚ) (h : q < 0) :
    quantizeCents q = -quantizeCents (-q) := by
  rw [quantizeCents, quantizeCents, Rat.num_neg_eq_neg_num, Rat.neg_den]
  rw [if_neg (by simpa using h.not_le), if_pos (by simpa using h.le)]

theorem quantizeCents_nonneg (q : ℚ) (h : 0 ≤ q) : 0 ≤ quantizeCents q := by
  rw [quantizeCents_nonneg_eq q h]
  have : (0 : ℚ) ≤ 100 * q + 1 / 2 := by linarith
  exact Int.le_floor.mpr (by exact_mod_cast this)

theorem quantizeCents_intCast_div (c : ℤ) (h : 0 ≤ c) :
    quantizeCents ((c : ℚ) / 100) = c := by
  rw [quantizeCents_nonneg_eq _ (by positivity)]
  have he : (100 : ℚ) * ((c : ℚ) / 100) + 1 / 2 = (c : ℚ) + 1 / 2 := by ring
  have hz : ⌊(1 / 2 : ℚ)⌋ = 0 := by
    rw [Int.floor_eq_zero_iff]
    constructor <;> norm_num
  rw [he, Int.floor_int_add]
  omega

/-- `quantizeCents q` is within half a cent of `100 * q`: it is a nearest
integer to `100 * q`. -/
theorem abs_quantizeCents_sub (q : ℚ) :
    |100 * q - (quantizeCents q : ℚ)| ≤ 1 / 2 := by
  rcases le_or_lt 0 q with h | h
  · rw [quantizeCents_nonneg_eq q h]
    have h1 := Int.floor_le (100 * q + 1 / 2)
    have h2 := Int.lt_floor_add_one (100 * q + 1 / 2)
    rw [abs_le]
    constructor <;> [linarith; linarith]
  · rw [quantizeCents_neg_eq q h]
    rw [quantizeCents_nonneg_eq _ (by linarith)]
    have h1 := Int.floor_le (100 * -q + 1 / 2)
    have h2 := Int.lt_floor_add_one (100 * -q + 1 / 2)
    rw [abs_le]
    push_cast
    constructor <;> [linarith; linarith]

/-! ### Characterizations of validation, construction and the two mutators -/

theorem validate_num_eq (q : ℚ) :
    _validate_amount (.num q) =
      if quantizeCents q ≤ 0 then .error .nonPositiveAmount
      else .ok (quantizeCents q) := rfl

theorem validate_num_ok_iff (q : ℚ) (c : ℤ) :
    _validate_amount (.num q) = .ok c ↔
      c = quantizeCents q ∧ 0 < quantizeCents q := by
  rw [validate_num_eq]
  split
  · simp only [reduceCtorEq, false_iff]
    omega
  · simp only [Except.ok.injEq]
    constructor
    · rintro rfl
      omega
    · rintro ⟨rfl, _⟩
      rfl

theorem validate_ok_inv (amount : PyAmount) (c : ℤ)
    (h : _validate_amount amount = .ok c) :
    0 < c ∧ ∃ q, amount = .num q ∧ c = quantizeCents q := by
  cases amount with
  | num q =>
    rw [validate_num_eq] at h
    split at h
    · cases h
    · cases h
      rename_i hpos
      exact ⟨by omega, q, rfl, rfl⟩
  | boolean b => cases h
  | nonNumeric s => cases h

theorem deposit_error_iff (acct : BankAccount) (amount : PyAmount)
    (ts : String) (e : BankError) (a' : BankAccount) :
    deposit acct amount ts = .error (e, a') ↔
      _validate_amount amount = .error e ∧ a' = acct := by
  unfold deposit
  cases h : _validate_amount amount <;> simp [eq_comm]

theorem deposit_ok_iff (acct : BankAccount) (amount : PyAmount)
    (ts : String) (a' : BankAccount) (r : Bool) :
    deposit acct amount ts = .ok (a', r) ↔
      ∃ c, _validate_amount amount = .ok c ∧ r = true ∧
        a' = ⟨acct.account_number, acct.bal + c,
              acct.hist ++ [⟨.deposit, c, ts⟩]⟩ := by
  unfold deposit
  cases h : _validate_amount amount with
  | error e => simp
  | ok c => simp [_record_transaction, eq_comm, and_comm]

theorem withdraw_error_iff (acct : BankAccount) (amount : PyAmount)
    (ts : String) (e : BankError) (a' : BankAccount) :
    withdraw acct amount ts = .error (e, a') ↔
      (_validate_amount amount = .error e ∧ a' = acct) ∨
      (∃ c, _validate_amount amount = .ok c ∧ acct.bal < c ∧
        e = .insufficientFunds ∧ a' = acct) := by
  unfold withdraw
  cases h : _validate_amount amount with
  | error e' => simp [eq_comm]
  | ok c =>
    by_cases hlt : acct.bal < c
    · simp [hlt, eq_comm]
    · simp [hlt]

theorem withdraw_ok_iff (acct : BankAccount) (amount : PyAmount)
    (ts : String) (a' : BankAccount) (r : Bool) :
    withdraw acct amount ts = .ok (a', r) ↔
      ∃ c, _validate_amount amount = .ok c ∧ c ≤ acct.bal ∧ r = true ∧
        a' = ⟨acct.account_number, acct.bal - c,
              acct.hist ++ [⟨.withdrawal, c, ts⟩]⟩ := by
  unfold withdraw
  cases h : _validate_amount amount with
  | error e' => simp
  | ok c =>
    by_cases hlt : acct.bal < c
    · simp [hlt]
    · simp [hlt, _record_transaction, eq_comm, and_comm]
      omega

theorem pyListCopy_eq (l : List Transaction) : pyListCopy l = l := by
  induction l with
  | nil => rfl
  | cons t ts ih => simp [pyListCopy] at ih ⊢

theorem init_ok_iff (id : String) (q : ℚ) (a : BankAccount) :
    init id q = .ok a ↔
      (¬ id.isEmpty ∧ pyStrIsDigit id = true ∧ id.length = 9 ∧ 0 ≤ q ∧
        a = ⟨id, quantizeCents q, []⟩) := by
  unfold init
  by_cases h1 : id.isEmpty
  · simp [h1]
  · rw [if_neg (by simpa using h1)]
    by_cases h2 : pyStrIsDigit id = true ∧ id.length = 9
    · rw [if_neg (by simp [h2.1, h2.2])]
      by_cases h3 : q < 0
      · rw [if_pos h3]
        simp [h1, h2, h3, not_le.mpr h3]
      · rw [if_neg h3]
        simp [h1, h2.1, h2.2, not_lt.mp h3, eq_comm]
    · have : (!pyStrIsDigit id || id.length != 9) = true := by
        rcases not_and_or.mp h2 with h | h
        · simp [Bool.not_eq_true] at h
          simp [h]
        · simp [h]
      rw [if_pos this]
      simp only [reduceCtorEq, false_iff]
      rintro ⟨_, hd, hl, _, _⟩
      exact h2 ⟨hd, hl⟩

theorem init_error_inv (id : String) (q : ℚ) (e : BankError)
    (h : init id q = .error e) :
    (∃ msg, e = .invalidIdentifier msg) ∨
      (e = .negativeInitialBalance ∧ q < 0) := by
  unfold init at h
  split at h
  · cases h
    exact .inl ⟨_, rfl⟩
  · split at h
    · cases h
      exact .inl ⟨_, rfl⟩
    · split at h
      · cases h
        rename_i hq
        exact .inr ⟨rfl, hq⟩
      · cases h

theorem init_valid_neg (id : String) (q : ℚ)
    (hid : pyStrIsDigit id = true ∧ id.length = 9) (hq : q < 0) :
    init id q = .error .negativeInitialBalance := by
  unfold init
  have h1 : id.isEmpty = false := by
    have h := hid.1
    rw [pyStrIsDigit, Bool.and_eq_true] at h
    simpa using h.1
  rw [if_neg (by simp [h1]), if_neg (by simp [hid.1, hid.2]), if_pos hq]

/-! ### Transition-system lemmas: one step, then whole runs -/

theorem depositSum_append (l : List Transaction) (t : Transaction) :
    depositSum (l ++ [t]) =
      depositSum l + (if isDeposit t then t.amount else 0) := by
  simp only [depositSum, List.filter_append, List.map_append, List.sum_append]
  split <;> simp_all

theorem withdrawalSum_append (l : List Transaction) (t : Transaction) :
    withdrawalSum (l ++ [t]) =
      withdrawalSum l + (if isDeposit t then 0 else t.amount) := by
  simp only [withdrawalSum, List.filter_append, List.map_append, List.sum_append]
  split <;> simp_all

/-- Every call either leaves the state unchanged (a raise) or appends one
strictly positive transaction with the matching balance change. -/
theorem step_cases (acct : BankAccount) (op : AccountOp) :
    step acct op = acct ∨
    (∃ c ts, 0 < c ∧
      step acct op = ⟨acct.account_number, acct.bal + c,
        acct.hist ++ [⟨.deposit, c, ts⟩]⟩) ∨
    (∃ c ts, 0 < c ∧ c ≤ acct.bal ∧
      step acct op = ⟨acct.account_number, acct.bal - c,
        acct.hist ++ [⟨.withdrawal, c, ts⟩]⟩) := by
  cases op with
  | deposit amount ts =>
    simp only [step, applyOp]
    cases hd : deposit acct amount ts with
    | error p =>
      left
      have := (deposit_error_iff acct amount ts p.1 p.2).mp (by rw [hd])
      simp [this.2]
    | ok p =>
      right; left
      have := (deposit_ok_iff acct amount ts p.1 p.2).mp (by rw [hd])
      rcases this with ⟨c, hv, hr, ha⟩
      exact ⟨c, ts, (validate_ok_inv _ _ hv).1, by simp [ha]⟩
  | withdraw amount ts =>
    simp only [step, applyOp]
    cases hd : withdraw acct amount ts with
    | error p =>
      left
      have := (withdraw_error_iff acct amount ts p.1 p.2).mp (by rw [hd])
      rcases this with ⟨_, h2⟩ | ⟨c, _, _, _, h2⟩ <;> simp [h2]
    | ok p =>
      right; right
      have := (withdraw_ok_iff acct amount ts p.1 p.2).mp (by rw [hd])
      rcases this with ⟨c, hv, hle, hr, ha⟩
      exact ⟨c, ts, (validate_ok_inv _ _ hv).1, hle, by simp [ha]⟩

theorem run_cons (acct : BankAccount) (op : AccountOp) (ops : List AccountOp) :
    run acct (op :: ops) = run (step acct op) ops := rfl

theorem run_ledger (B0 : ℤ) (ops : List AccountOp) (acct : BankAccount)
    (h : acct.bal = B0 + depositSum acct.hist - withdrawalSum acct.hist) :
    (run acct ops).bal =
      B0 + depositSum (run acct ops).hist - withdrawalSum (run acct ops).hist := by
  induction ops generalizing acct with
  | nil => simpa [run]
  | cons op ops ih =>
    rw [run_cons]
    refine ih _ ?_
    rcases step_cases acct op with h0 | ⟨c, ts, hc, he⟩ | ⟨c, ts, hc, hle, he⟩
    · rw [h0]; exact h
    · rw [he]
      simp [depositSum_append, withdrawalSum_append, isDeposit]
      omega
    · rw [he]
      simp [depositSum_append, withdrawalSum_append, isDeposit]
      omega

theorem run_nonneg (ops : List AccountOp) (acct : BankAccount)
    (h : 0 ≤ acct.bal) : 0 ≤ (run acct ops).bal := by
  induction ops generalizing acct with
  | nil => simpa [run]
  | cons op ops ih =>
    rw [run_cons]
    refine ih _ ?_
    rcases step_cases acct op with h0 | ⟨c, ts, hc, he⟩ | ⟨c, ts, hc, hle, he⟩
    · rw [h0]; exact h
    · rw [he]; simp; omega
    · rw [he]; simp; omega

/-! ### The claims -/

/-- C1: for every sequence of create/deposit/withdraw calls, at every
observation point the balance equals the rounded initial balance plus the
sum of all Deposit amounts minus the sum of all Withdrawal amounts in the
history, with exact (integer-cents) equality. -/
theorem claimC1_balance_equation (id : String) (q : ℚ) (a0 : BankAccount)
    (ops : List AccountOp) (h : init id q = .ok a0) :
    balance (run a0 ops) = quantizeCents q
      + depositSum (run a0 ops).hist - withdrawalSum (run a0 ops).hist := by
  rcases (init_ok_iff id q a0).mp h with ⟨-, -, -, -, ha⟩
  exact run_ledger _ _ _ (by rw [ha]; simp [depositSum, withdrawalSum])

/-- Witness for C1: the spec's scripted scenario, balance 100 then
deposit 50 / withdraw 20 / deposit 30. -/
theorem claimC1_balance_equation_witness :
    init "123456789" (mkRat 100 1) = .ok acct100 ∧
    balance (run acct100 sampleOps) = quantizeCents (mkRat 100 1)
      + depositSum (run acct100 sampleOps).hist
      - withdrawalSum (run acct100 sampleOps).hist :=
  ⟨rfl, claimC1_balance_equation "123456789" (mkRat 100 1) acct100 sampleOps rfl⟩

/-- C2: every account reachable by a successful construction followed by
any sequence of deposit and withdraw calls (successful or failing) has a
non-negative balance. -/
theorem claimC2_balance_nonneg (id : String) (q : ℚ) (a0 : BankAccount)
    (ops : List AccountOp) (h : init id q = .ok a0) :
    0 ≤ balance (run a0 ops) := by
  rcases (init_ok_iff id q a0).mp h with ⟨-, -, -, hq, ha⟩
  exact run_nonneg _ _ (by rw [ha]; exact quantizeCents_nonneg q hq)

/-- Witness for C2 at the scripted scenario. -/
theorem claimC2_balance_nonneg_witness :
    0 ≤ balance (run acct100 sampleOps) :=
  claimC2_balance_nonneg "123456789" (mkRat 100 1) acct100 sampleOps rfl

/-- C3: a deposit or withdraw call that raises any error leaves the
account exactly as it was (same balance, same history): the state carried
at the raise point is the initial state. -/
theorem claimC3_failure_noop (acct : BankAccount) (amount : PyAmount)
    (ts : String) (e : BankError) (a' : BankAccount) :
    (deposit acct amount ts = .error (e, a') → a' = acct) ∧
    (withdraw acct amount ts = .error (e, a') → a' = acct) := by
  constructor
  · intro h
    exact ((deposit_error_iff acct amount ts e a').mp h).2
  · intro h
    rcases (withdraw_error_iff acct amount ts e a').mp h with
      ⟨-, h2⟩ | ⟨-, -, -, -, h2⟩ <;> exact h2

/-- Witness for C3: a non-numeric deposit and an insufficient-funds
withdrawal both fail leaving the account unchanged. -/
theorem claimC3_failure_noop_witness :
    deposit acct100 (.nonNumeric "abc") "t" = .error (.nonNumericAmount, acct100) ∧
    acct100 = acct100 ∧ acct100 = acct100 :=
  ⟨rfl,
   (claimC3_failure_noop acct100 (.nonNumeric "abc") "t"
     .nonNumericAmount acct100).1 rfl,
   (claimC3_failure_noop acct100 (.num (mkRat 500 1)) "t"
     .insufficientFunds acct100).2 rfl⟩

/-- C4: `_validate_amount` on a numeric input rounds half-up to 2 decimal
places (the result is within half a cent of the value, 10.999 gives 11.00,
0.005 gives 0.01) and fails with `NonPositiveAmount` exactly when the
rounded value is at most zero (so 0.001 is rejected, not a no-op); on
success the returned cents are exactly what a deposit or withdrawal
applies to the balance and records in the history. -/
theorem claimC4_validate (acct : BankAccount) (q : ℚ) (c : ℤ) (ts : String)
    (a' : BankAccount) (r : Bool) :
    (_validate_amount (.num q) = .ok c ↔
      c = quantizeCents q ∧ 0 < quantizeCents q) ∧
    (_validate_amount (.num q) = .error .nonPositiveAmount ↔
      quantizeCents q ≤ 0) ∧
    |100 * q - (quantizeCents q : ℚ)| ≤ 1 / 2 ∧
    _validate_amount (.num (mkRat 10999 1000)) = .ok 1100 ∧
    _validate_amount (.num (mkRat 1 1000)) = .error .nonPositiveAmount ∧
    quantizeCents (mkRat 1 200) = 1 ∧
    (_validate_amount (.num q) = .ok c →
      (deposit acct (.num q) ts = .ok (a', r) →
        balance a' = balance acct + c ∧
        a'.hist = acct.hist ++ [⟨.deposit, c, ts⟩]) ∧
      (withdraw acct (.num q) ts = .ok (a', r) →
        balance a' = balance acct - c ∧
        a'.hist = acct.hist ++ [⟨.withdrawal, c, ts⟩])) := by
  refine ⟨validate_num_ok_iff q c, ?_, abs_quantizeCents_sub q, rfl, rfl, rfl, ?_⟩
  · rw [validate_num_eq]
    split
    · simp_all
    · simp_all
  · intro hv
    constructor
    · intro hd
      rcases (deposit_ok_iff acct (.num q) ts a' r).mp hd with ⟨c', hv', hr, ha⟩
      rw [hv] at hv'
      cases hv'
      rw [ha]
      exact ⟨rfl, rfl⟩
    · intro hw
      rcases (withdraw_ok_iff acct (.num q) ts a' r).mp hw with
        ⟨c', hv', hle, hr, ha⟩
      rw [hv] at hv'
      cases hv'
      rw [ha]
      exact ⟨rfl, rfl⟩

/-- Witness for C4: depositing 50 into the 100.00 account applies exactly
5000 cents and records it. -/
theorem claimC4_validate_witness :
    balance ⟨"123456789", 15000, [⟨.deposit, 5000, "t"⟩]⟩ = balance acct100 + 5000 ∧
    (⟨"123456789", 15000, [⟨.deposit, 5000, "t"⟩]⟩ : BankAccount).hist =
      acct100.hist ++ [⟨.deposit, 5000, "t"⟩] :=
  ((claimC4_validate acct100 (mkRat 50 1) 5000 "t"
      ⟨"123456789", 15000, [⟨.deposit, 5000, "t"⟩]⟩ true).2.2.2.2.2.2 rfl).1 rfl

/-- C5: for a validated amount, withdraw fails with `InsufficientFunds`
(account unchanged) exactly when the amount exceeds the balance;
withdrawing exactly the balance succeeds leaving 0.00, and withdrawing
one cent more fails with `InsufficientFunds`. -/
theorem claimC5_withdraw_bounds (acct : BankAccount) (q : ℚ) (c : ℤ)
    (ts : String) (hv : _validate_amount (.num q) = .ok c) :
    (withdraw acct (.num q) ts = .error (.insufficientFunds, acct) ↔
      balance acct < c) ∧
    (c = balance acct →
      withdraw acct (.num q) ts =
        .ok (⟨acct.account_number, 0, acct.hist ++ [⟨.withdrawal, c, ts⟩]⟩, true)) ∧
    (c = balance acct + 1 →
      withdraw acct (.num q) ts = .error (.insufficientFunds, acct)) := by
  have hlt_err : ∀ h : acct.bal < c,
      withdraw acct (.num q) ts = .error (.insufficientFunds, acct) :=
    fun h => (withdraw_error_iff acct (.num q) ts .insufficientFunds acct).mpr
      (.inr ⟨c, hv, h, rfl, rfl⟩)
  refine ⟨⟨?_, hlt_err⟩, ?_, ?_⟩
  · intro h
    rcases (withdraw_error_iff acct (.num q) ts .insufficientFunds acct).mp h with
      ⟨hv', -⟩ | ⟨c', hv', hlt, -, -⟩
    · rw [hv] at hv'; cases hv'
    · rw [hv] at hv'; cases hv'; exact hlt
  · intro hc
    refine (withdraw_ok_iff acct (.num q) ts _ true).mpr
      ⟨c, hv, le_of_eq hc, rfl, ?_⟩
    have : acct.bal - c = 0 := by rw [hc]; simp [balance]
    rw [this]
  · intro hc
    exact hlt_err (by rw [hc]; simp [balance])

/-- Witness for C5: withdrawing exactly 100.00 from the 100.00 account
leaves 0.00; withdrawing 100.01 fails with `InsufficientFunds`. -/
theorem claimC5_withdraw_bounds_witness :
    withdraw acct100 (.num (mkRat 100 1)) "t" =
      .ok (⟨"123456789", 0, [⟨.withdrawal, 10000, "t"⟩]⟩, true) ∧
    withdraw acct100 (.num (mkRat 10001 100)) "t" =
      .error (.insufficientFunds, acct100) :=
  ⟨(claimC5_withdraw_bounds acct100 (mkRat 100 1) 10000 "t" rfl).2.1 rfl,
   (claimC5_withdraw_bounds acct100 (mkRat 10001 100) 10001 "t" rfl).2.2 rfl⟩

/-- Counterexample to C6 as stated: a nine-character identifier made of
ARABIC-INDIC DIGIT FIVE (U+0665) — not an ASCII digit — is accepted by
construction, because Python's `str.isdigit` is Unicode-aware. -/
theorem claimC6_counterexample :
    (init "٥٥٥٥٥٥٥٥٥" (mkRat 0 1)).isOk = true ∧
    "٥٥٥٥٥٥٥٥٥".length = 9 ∧
    "٥٥٥٥٥٥٥٥٥".data.all Char.isDigit = false := ⟨rfl, rfl, rfl⟩

/-- C6 (amended): construction accepts an identifier iff it is non-empty,
has length 9, and every character is a digit in the sense of Python's
Unicode `str.isdigit` — which also accepts non-ASCII digit characters;
every identifier violation fails with `InvalidIdentifier`. -/
theorem claimC6_identifier (id : String) (q : ℚ) (hq : 0 ≤ q) :
    ((init id q).isOk = true ↔
      (¬ id.isEmpty ∧ id.data.all pyCharIsDigit = true ∧ id.length = 9)) ∧
    (∀ e, init id q = .error e → ∃ msg, e = .invalidIdentifier msg) := by
  constructor
  · constructor
    · intro h
      cases hres : init id q with
      | error e => rw [hres] at h; cases h
      | ok a =>
        rcases (init_ok_iff id q a).mp hres with ⟨h1, h2, h3, -, -⟩
        rw [pyStrIsDigit, Bool.and_eq_true] at h2
        exact ⟨h1, h2.2, h3⟩
    · rintro ⟨h1, h2, h3⟩
      have : init id q = .ok ⟨id, quantizeCents q, []⟩ :=
        (init_ok_iff id q _).mpr
          ⟨h1, by rw [pyStrIsDigit]; simp [h2, h1], h3, hq, rfl⟩
      rw [this]
      rfl
  · intro e he
    rcases init_error_inv id q e he with h | ⟨-, hneg⟩
    · exact h
    · exact absurd hneg (not_lt.mpr hq)

/-- Witness for C6 (amended): the all-ASCII identifier "123456789" is
accepted. -/
theorem claimC6_identifier_witness :
    (init "123456789" (mkRat 0 1)).isOk = true :=
  (claimC6_identifier "123456789" (mkRat 0 1) (by decide)).1.mpr
    ⟨by decide, by decide, by decide⟩

/-- C7: with a well-formed identifier, a negative initial balance fails
construction with `NegativeInitialBalance`, and on success the balance is
the rounded initial balance and the history is empty. -/
theorem claimC7_construction (id : String) (q : ℚ)
    (hid : pyStrIsDigit id = true ∧ id.length = 9) :
    (q < 0 → init id q = .error .negativeInitialBalance) ∧
    (∀ a, init id q = .ok a →
      balance a = quantizeCents q ∧ get_transaction_history a = []) := by
  constructor
  · exact init_valid_neg id q hid
  · intro a ha
    rcases (init_ok_iff id q a).mp ha with ⟨-, -, -, -, ha'⟩
    rw [ha']
    exact ⟨rfl, rfl⟩

/-- Witness for C7: initial balance -100 is rejected; initial balance 100
yields balance 100.00 and empty history. -/
theorem claimC7_construction_witness :
    init "123456789" (mkRat (-100) 1) = .error .negativeInitialBalance ∧
    balance acct100 = quantizeCents (mkRat 100 1) ∧
    get_transaction_history acct100 = [] :=
  ⟨(claimC7_construction "123456789" (mkRat (-100) 1)
      ⟨by decide, by decide⟩).1 (by decide),
   (claimC7_construction "123456789" (mkRat 100 1)
      ⟨by decide, by decide⟩).2 acct100 rfl⟩

/-- C8: `_validate_amount` is idempotent — a strictly positive amount
already at 2-decimal scale (`c` cents, i.e. the value `c / 100`) validates
to itself, so re-validating the result of a successful validation returns
the same value. -/
theorem claimC8_idempotent (c : ℤ) (hc : 0 < c) :
    _validate_amount (.num ((c : ℚ) / 100)) = .ok c ∧
    (∀ q c₀, _validate_amount (.num q) = .ok c₀ →
      _validate_amount (.num ((c₀ : ℚ) / 100)) = .ok c₀) := by
  have main : ∀ d : ℤ, 0 < d →
      _validate_amount (.num ((d : ℚ) / 100)) = .ok d := by
    intro d hd
    rw [validate_num_eq, quantizeCents_intCast_div d hd.le, if_neg (by omega)]
  refine ⟨main c hc, fun q c₀ h => ?_⟩
  rcases validate_ok_inv _ _ h with ⟨hpos, -⟩
  exact main c₀ hpos

/-- Witness for C8 at 11.00 (1100 cents). -/
theorem claimC8_idempotent_witness :
    _validate_amount (.num (((1100 : ℤ) : ℚ) / 100)) = .ok 1100 :=
  (claimC8_idempotent 1100 (by decide)).1

/-- C9: `get_transaction_history` returns exactly the full ordered
internal log (as a freshly built copy), and each call keeps the existing
log as an unchanged prefix, appending exactly one transaction when it
succeeds and nothing when it fails. -/
theorem claimC9_history (acct : BankAccount) :
    get_transaction_history acct = acct.hist ∧
    (∀ op : AccountOp,
      (step acct op).hist.take acct.hist.length = acct.hist ∧
      (step acct op).hist.length =
        acct.hist.length + (if (applyOp acct op).isOk then 1 else 0)) := by
  refine ⟨pyListCopy_eq _, fun op => ?_⟩
  cases op with
  | deposit amount ts =>
    cases hres : deposit acct amount ts with
    | error p =>
      have h2 := ((deposit_error_iff acct amount ts p.1 p.2).mp (by rw [hres])).2
      have hstep : step acct (.deposit amount ts) = acct := by
        simp [step, applyOp, hres, h2]
      have hok : (applyOp acct (.deposit amount ts)).isOk = false := by
        simp [applyOp, hres, Except.isOk, Except.toBool]
      rw [hstep, hok]
      simp
    | ok p =>
      obtain ⟨c, hv, hr, ha⟩ :=
        (deposit_ok_iff acct amount ts p.1 p.2).mp (by rw [hres])
      have hstep : step acct (.deposit amount ts) = p.1 := by
        simp [step, applyOp, hres]
      have hok : (applyOp acct (.deposit amount ts)).isOk = true := by
        simp [applyOp, hres, Except.isOk, Except.toBool]
      rw [hstep, hok, ha]
      simp [List.take_left]
  | withdraw amount ts =>
    cases hres : withdraw acct amount ts with
    | error p =>
      have h2 : p.2 = acct := by
        rcases (withdraw_error_iff acct amount ts p.1 p.2).mp (by rw [hres]) with
          ⟨-, h2⟩ | ⟨-, -, -, -, h2⟩ <;> exact h2
      have hstep : step acct (.withdraw amount ts) = acct := by
        simp [step, applyOp, hres, h2]
      have hok : (applyOp acct (.withdraw amount ts)).isOk = false := by
        simp [applyOp, hres, Except.isOk, Except.toBool]
      rw [hstep, hok]
      simp
    | ok p =>
      obtain ⟨c, hv, hle, hr, ha⟩ :=
        (withdraw_ok_iff acct amount ts p.1 p.2).mp (by rw [hres])
      have hstep : step acct (.withdraw amount ts) = p.1 := by
        simp [step, applyOp, hres]
      have hok : (applyOp acct (.withdraw amount ts)).isOk = true := by
        simp [applyOp, hres, Except.isOk, Except.toBool]
      rw [hstep, hok, ha]
      simp [List.take_left]

/-- Counterexample to C10 as stated: `deposit(True)` does not behave as a
deposit of 1.00 — it raises (`Decimal(str(True))` is a conversion error),
so the account with balance 100.00 does not become 101.00. -/
theorem claimC10_counterexample :
    deposit acct100 (.boolean true) "t" = .error (.invalidOperation, acct100) ∧
    deposit acct100 (.boolean true) "t" ≠
      .ok (⟨"123456789", 10100, [⟨.deposit, 100, "t"⟩]⟩, true) :=
  ⟨rfl, fun h => by
    rw [show deposit acct100 (.boolean true) "t" =
      .error (.invalidOperation, acct100) from rfl] at h
    simp at h⟩

/-- C10 (amended): booleans pass the `isinstance` numeric-type check
(`bool` subclasses `int`), but `Decimal(str(amount))` then raises
`decimal.InvalidOperation` because `str(True)`/`str(False)` is not a
decimal literal; both deposit and withdraw of a boolean fail that way,
not with `NonNumericAmount` or `NonPositiveAmount`, leaving the account
unchanged. -/
theorem claimC10_boolean_amount (acct : BankAccount) (b : Bool) (ts : String) :
    isinstanceNumeric (.boolean b) = true ∧
    deposit acct (.boolean b) ts = .error (.invalidOperation, acct) ∧
    withdraw acct (.boolean b) ts = .error (.invalidOperation, acct) :=
  ⟨rfl, rfl, rfl⟩

end BankPy
